import Mathlib

/-!
Shallow embedding of the `stockmonitor` repository.

Numeric values (Python floats, DuckDB DECIMALs) are modelled as exact
rationals `ℚ`; Python floats never overflow on the magnitudes involved and
every claim is about exact two-decimal quantities.  Python exceptions are
modelled with `Except`, `None` results with `Option`.  A pandas DataFrame
column cell is a `Cell` (a Python value that is `None`, a string or a float).
-/

namespace StockMonitor

/-- Decimal digit characters of a natural number, most significant first. -/
def natDigits (n : ℕ) : List Char :=
  if n = 0 then ['0'] else ((Nat.digits 10 n).map (fun d => Char.ofNat (48 + d))).reverse

/-- Numeric value of a digit character. -/
def charVal (c : Char) : ℕ := c.toNat - 48

/-- Value of a digit string, most significant first. -/
def charsToNat (cs : List Char) : ℕ := cs.foldl (fun a c => 10 * a + charVal c) 0

def natStr (n : ℕ) : String := ⟨natDigits n⟩

/-- Models Python `float(s)` on plain decimal numerals: optional leading
minus sign, integer digits, optional fractional part.  (Python's `float`
also accepts exponents, `inf`, etc.; the program only ever feeds it plain
decimals.)  Returns `none` where Python raises `ValueError`. -/
def parseFloat? (s : String) : Option ℚ :=
  let cs := s.data
  let neg : Bool := cs.head? == some '-'
  let cs1 := if neg then cs.tail else cs
  let ip := cs1.takeWhile Char.isDigit
  let rest := cs1.dropWhile Char.isDigit
  let sgn : ℚ := if neg then -1 else 1
  match rest with
  | [] => if ip.isEmpty then none else some (sgn * charsToNat ip)
  | '.' :: fp =>
    if fp.all Char.isDigit ∧ ¬(ip.isEmpty ∧ fp.isEmpty) then
      some (sgn * ((charsToNat ip : ℚ) + (charsToNat fp : ℚ) / (10 : ℚ) ^ fp.length))
    else none
  | _ => none

/-- Models Python `s.replace(b, '')`: removes every occurrence of
the character `b`. -/
def stripAll (b : Char) (s : String) : String := ⟨s.data.filter (fun c => c != b)⟩

/-- Two-digit zero-padded rendering of `n < 100` (the cents part). -/
def pad2Chars (n : ℕ) : List Char := if n < 10 then '0' :: natDigits n else natDigits n

/-- Renders `n` cents as a two-decimal string, e.g. `12345 ↦ "123.45"`.
This is how both Python's `f"{v:.2f}"` and DuckDB's `DECIMAL(10,2)` →
`VARCHAR` cast display an exact two-decimal nonnegative value. -/
def fmtCents (n : ℕ) : String := ⟨natDigits (n / 100) ++ '.' :: pad2Chars (n % 100)⟩

/-- Dollar rendering of `n` cents, e.g. `12345 ↦ "$123.45"`. -/
def fmtDollar (n : ℕ) : String := ⟨'$' :: (fmtCents n).data⟩

/-- Nearest-integer cents of a rational (exact on two-decimal values,
which is the only case the program produces). -/
def roundCents (q : ℚ) : ℤ := round (q * 100)

/-- Models two-decimal display of a possibly negative value
(`f"{v:.2f}"`, DuckDB DECIMAL display). -/
def fmt2 (q : ℚ) : String :=
  if q < 0 then ⟨'-' :: (fmtCents (roundCents q).natAbs).data⟩
  else fmtCents (roundCents q).natAbs

/-! ### Digit-string lemmas: formatting and parsing are mutually inverse -/

lemma charVal_chr (d : ℕ) (hd : d < 10) : charVal (Char.ofNat (48 + d)) = d := by
  interval_cases d <;> decide

lemma isDigit_chr (d : ℕ) (hd : d < 10) : (Char.ofNat (48 + d)).isDigit = true := by
  interval_cases d <;> decide

lemma isDigit_ne_minus {c : Char} (h : c.isDigit = true) : c ≠ '-' := by
  intro hc; subst hc; exact absurd h (by decide)

lemma isDigit_ne_dot {c : Char} (h : c.isDigit = true) : c ≠ '.' := by
  intro hc; subst hc; exact absurd h (by decide)

lemma charsToNat_rev_map (ds : List ℕ) (h : ∀ d ∈ ds, d < 10) :
    charsToNat ((ds.map (fun d => Char.ofNat (48 + d))).reverse) = Nat.ofDigits 10 ds := by
  unfold charsToNat
  rw [List.foldl_reverse]
  induction ds with
  | nil => simp [Nat.ofDigits]
  | cons d ds ih =>
    simp only [List.map_cons, List.foldr_cons, Nat.ofDigits_cons]
    rw [ih (fun x hx => h x (List.mem_cons_of_mem _ hx)),
      charVal_chr d (h d (List.mem_cons_self _ _))]
    ring

lemma charsToNat_natDigits (n : ℕ) : charsToNat (natDigits n) = n := by
  unfold natDigits
  split
  · simp_all [charsToNat, charVal]
  · rw [charsToNat_rev_map _ (fun d hd => Nat.digits_lt_base (by norm_num) hd),
      Nat.ofDigits_digits]

lemma natDigits_all_digit (n : ℕ) : ∀ c ∈ natDigits n, c.isDigit = true := by
  unfold natDigits
  split
  · intro c hc; simp at hc; subst hc; decide
  · intro c hc
    simp only [List.mem_reverse, List.mem_map] at hc
    obtain ⟨d, hd, rfl⟩ := hc
    exact isDigit_chr d (Nat.digits_lt_base (by norm_num) hd)

lemma natDigits_ne_nil (n : ℕ) : natDigits n ≠ [] := by
  unfold natDigits
  split
  · simp
  · simp only [ne_eq, List.reverse_eq_nil_iff, List.map_eq_nil_iff]
    exact Nat.digits_ne_nil_iff_ne_zero.mpr (by assumption)

lemma natDigits_len_lt10 (n : ℕ) (h : n < 10) : (natDigits n).length = 1 := by
  unfold natDigits
  split
  · rfl
  · rw [List.length_reverse, List.length_map,
      Nat.digits_def' (b := 10) (by norm_num) (Nat.pos_of_ne_zero (by assumption))]
    simp [Nat.div_eq_of_lt h]

lemma natDigits_len_10_99 (n : ℕ) (h1 : 10 ≤ n) (h2 : n < 100) :
    (natDigits n).length = 2 := by
  unfold natDigits
  split
  · omega
  · rw [List.length_reverse, List.length_map,
      Nat.digits_def' (b := 10) (by norm_num) (by omega),
      Nat.digits_def' (b := 10) (by norm_num) (by omega)]
    have : n / 10 / 10 = 0 := by omega
    simp [this]

lemma pad2Chars_all_digit (n : ℕ) : ∀ c ∈ pad2Chars n, c.isDigit = true := by
  unfold pad2Chars
  split
  · intro c hc
    rcases List.mem_cons.mp hc with rfl | hc
    · decide
    · exact natDigits_all_digit n c hc
  · exact natDigits_all_digit n

lemma pad2Chars_length (n : ℕ) (h : n < 100) : (pad2Chars n).length = 2 := by
  unfold pad2Chars
  split
  · simp [natDigits_len_lt10 n (by omega)]
  · exact natDigits_len_10_99 n (by omega) h

lemma charsToNat_pad2Chars (n : ℕ) : charsToNat (pad2Chars n) = n := by
  unfold pad2Chars
  split
  · show List.foldl _ (10 * 0 + charVal '0') (natDigits n) = n
    have : 10 * 0 + charVal '0' = 0 := by decide
    rw [this]
    exact charsToNat_natDigits n
  · exact charsToNat_natDigits n

lemma takeWhile_append_stop {p : Char → Bool} :
    ∀ (l₁ : List Char) (c : Char) (l₂ : List Char), (∀ x ∈ l₁, p x = true) → p c = false →
    (l₁ ++ c :: l₂).takeWhile p = l₁ ∧ (l₁ ++ c :: l₂).dropWhile p = c :: l₂ := by
  intro l₁
  induction l₁ with
  | nil => intro c l₂ _ hc; simp [List.takeWhile_cons, List.dropWhile_cons, hc]
  | cons a t ih =>
    intro c l₂ h hc
    have ha : p a = true := h a (List.mem_cons_self _ _)
    have := ih c l₂ (fun x hx => h x (List.mem_cons_of_mem _ hx)) hc
    simp [List.takeWhile_cons, List.dropWhile_cons, ha, this.1, this.2]

lemma parseFloat?_digit_string (ip fp : List Char)
    (h1 : ∀ c ∈ ip, c.isDigit = true) (h2 : ∀ c ∈ fp, c.isDigit = true) (hne : ip ≠ []) :
    parseFloat? ⟨ip ++ '.' :: fp⟩ =
      some ((charsToNat ip : ℚ) + (charsToNat fp : ℚ) / (10 : ℚ) ^ fp.length) := by
  obtain ⟨c₀, t, rfl⟩ : ∃ c₀ t, ip = c₀ :: t := by
    cases ip with
    | nil => exact absurd rfl hne
    | cons a b => exact ⟨a, b, rfl⟩
  have hc₀ : c₀.isDigit = true := h1 c₀ (List.mem_cons_self _ _)
  have hneg : (((c₀ :: t ++ '.' :: fp) : List Char).head? == some '-') = false := by
    simp only [List.cons_append, List.head?_cons]
    exact beq_eq_false_iff_ne.mpr (by simpa using isDigit_ne_minus hc₀)
  have htw := takeWhile_append_stop (p := Char.isDigit) (c₀ :: t) '.' fp h1 (by decide)
  unfold parseFloat?
  simp only [hneg, Bool.false_eq_true, if_false, htw.1, htw.2]
  have hfp : fp.all Char.isDigit = true := List.all_eq_true.mpr h2
  simp [hfp, List.all_eq_true.mp hfp]

lemma parseFloat?_fmtCents (n : ℕ) : parseFloat? (fmtCents n) = some ((n : ℚ) / 100) := by
  unfold fmtCents
  rw [parseFloat?_digit_string _ _ (natDigits_all_digit _) (pad2Chars_all_digit _)
    (natDigits_ne_nil _)]
  rw [charsToNat_natDigits, charsToNat_pad2Chars, pad2Chars_length _ (Nat.mod_lt _ (by norm_num))]
  have hdm : (100 : ℚ) * ((n / 100 : ℕ) : ℚ) + ((n % 100 : ℕ) : ℚ) = (n : ℚ) := by
    calc (100 : ℚ) * ((n / 100 : ℕ) : ℚ) + ((n % 100 : ℕ) : ℚ)
        = ((100 * (n / 100) + n % 100 : ℕ) : ℚ) := by push_cast; ring
      _ = (n : ℚ) := by rw [Nat.div_add_mod]
  field_simp
  linarith [hdm]

lemma fmtCents_chars (n : ℕ) : ∀ c ∈ (fmtCents n).data, c.isDigit = true ∨ c = '.' := by
  unfold fmtCents
  intro c hc
  rcases List.mem_append.mp hc with hc | hc
  · exact Or.inl (natDigits_all_digit _ c hc)
  · rcases List.mem_cons.mp hc with rfl | hc
    · exact Or.inr rfl
    · exact Or.inl (pad2Chars_all_digit _ c hc)

lemma stripAll_eq_of_not_mem (b : Char) (l : List Char) (h : ∀ c ∈ l, c ≠ b) :
    stripAll b ⟨l⟩ = ⟨l⟩ := by
  unfold stripAll
  congr 1
  exact List.filter_eq_self.mpr (fun c hc => by simpa using h c hc)

lemma stripAll_fmtCents (b : Char) (n : ℕ) (hd : b.isDigit = false) (hdot : b ≠ '.') :
    stripAll b (fmtCents n) = fmtCents n := by
  have : (fmtCents n) = ⟨(fmtCents n).data⟩ := rfl
  rw [this, stripAll_eq_of_not_mem]
  intro c hc
  rcases fmtCents_chars n c hc with h | rfl
  · intro hcb; rw [hcb] at h; rw [h] at hd; exact absurd hd (by simp)
  · exact fun hcb => hdot hcb.symm

lemma stripAll_fmtDollar (n : ℕ) : stripAll '$' (fmtDollar n) = fmtCents n := by
  unfold stripAll fmtDollar
  have : ('$' :: (fmtCents n).data).filter (fun c => c != '$') =
      (fmtCents n).data.filter (fun c => c != '$') := by
    simp [List.filter_cons]
  rw [this]
  have h2 := stripAll_fmtCents '$' n (by decide) (by decide)
  unfold stripAll at h2
  have := congrArg String.data h2
  simpa using congrArg String.mk this

/-! ### DataFrame cells and the comparator's safe converters
(`src/utils/data_storage.py`, `compare_with_previous`) -/

/-- A pandas DataFrame cell as the program uses it: Python `None` (or NaN),
a string, or a float. -/
inductive Cell where
  | none
  | str (s : String)
  | num (q : ℚ)
deriving DecidableEq, Repr

/-- Python `pd.isna` on a cell. -/
def Cell.isna : Cell → Bool
  | Cell.none => true
  | _ => false

/-- `safe_price_convert` from `compare_with_previous`: floats pass through,
strings are parsed after stripping `$` and `,`, anything else gives `None`.
A malformed string makes `float` raise `ValueError` (`Except.error`). -/
def safe_price_convert (c : Cell) : Except Unit (Option ℚ) :=
  match c with
  | Cell.num q => Except.ok (some q)
  | Cell.str s =>
    match parseFloat? (stripAll ',' (stripAll '$' s)) with
    | some q => Except.ok (some q)
    | Option.none => Except.error ()
  | Cell.none => Except.ok Option.none

/-- `safe_percent_convert` from `compare_with_previous`: same with `%`. -/
def safe_percent_convert (c : Cell) : Except Unit (Option ℚ) :=
  match c with
  | Cell.num q => Except.ok (some q)
  | Cell.str s =>
    match parseFloat? (stripAll ',' (stripAll '%' s)) with
    | some q => Except.ok (some q)
    | Option.none => Except.error ()
  | Cell.none => Except.ok Option.none

/-! ### The aggregator (`src/stock_monitor.py`) -/

/-- One source reading as returned by a client's `get_stock_data`
(only the keys `calculate_average_price` touches). -/
structure SourceData where
  price : Option ℚ
  prev_close : Option ℚ
deriving DecidableEq, Repr

/-- Python truthiness of an optional float: `None` and `0.0` are falsy. -/
def truthyQ : Option ℚ → Bool
  | Option.none => false
  | some q => q != 0

/-- `calculate_average_price(data_sources)`: collects the truthy `price`
values and the truthy `prev_close` values; if either list is empty it
returns `(None, None)` with a warning, else the two arithmetic means. -/
def calculate_average_price (data_sources : List (Option SourceData)) :
    Option ℚ × Option ℚ :=
  let prices := data_sources.filterMap (fun d =>
    match d with
    | some r => if truthyQ r.price then r.price else Option.none
    | Option.none => Option.none)
  let prev_closes := data_sources.filterMap (fun d =>
    match d with
    | some r => if truthyQ r.prev_close then r.prev_close else Option.none
    | Option.none => Option.none)
  if prices.isEmpty then (Option.none, Option.none)
  else if prev_closes.isEmpty then (Option.none, Option.none)
  else (some (prices.sum / prices.length), some (prev_closes.sum / prev_closes.length))

/-- `calculate_daily_change(current_price, prev_close)`: returns `None`
when `current_price` is falsy (`None` or `0.0`), when `prev_close` is
falsy, or when `prev_close == 0`; otherwise the percentage change.  The
division is only reached with a nonzero divisor. -/
def calculate_daily_change (current_price prev_close : Option ℚ) : Option ℚ :=
  match current_price, prev_close with
  | some c, some p =>
    if c = 0 ∨ p = 0 then Option.none
    else some ((c - p) / p * 100)
  | _, _ => Option.none

/-! ### The snapshot store (`src/utils/data_storage.py`) -/

/-- One row of the `stock_snapshots` table.  `timestamp` is in seconds;
`CAST(timestamp AS DATE)` is day-truncation. -/
structure SnapRow where
  timestamp : ℕ
  symbol : String
  company : String
  current_price : ℚ
  previous_close : ℚ
  daily_change : ℚ
  sources : String
deriving DecidableEq, Repr

/-- One row of the app-level DataFrame (`Symbol`, `Company`,
`Current Price`, `Previous Close`, `Daily Change`, `Sources`). -/
structure StockRecord where
  symbol : String
  company : String
  currentPrice : Cell
  previousClose : Cell
  dailyChange : Cell
  sources : String
deriving DecidableEq, Repr

/-- The DuckDB database: its rows plus an availability flag (false models
a storage backend that is down / failing writes). -/
structure Storage where
  available : Bool
  rows : List SnapRow
deriving DecidableEq, Repr

/-- A column conversion inside `save_stock_data`
(`df[col].str.replace(marker, '').astype(float)`); a cell whose string
does not parse as a float raises (whole-batch `astype` failure). -/
def convertCol (marker : Char) (c : Cell) : Except String ℚ :=
  match c with
  | Cell.str s =>
    match parseFloat? (stripAll marker s) with
    | some q => Except.ok q
    | Option.none => Except.error "could not convert string to float"
  | Cell.num q => Except.ok q
  | Cell.none => Except.error "could not convert to float"

/-- The column conversions of `save_stock_data` applied to a whole batch:
any malformed cell aborts the whole conversion (pandas `astype`). -/
def saveConvert : List StockRecord → ℕ → Except String (List SnapRow)
  | [], _ => Except.ok []
  | r :: rs, ts => do
    let cp ← convertCol '$' r.currentPrice
    let pc ← convertCol '$' r.previousClose
    let dc ← convertCol '%' r.dailyChange
    let rest ← saveConvert rs ts
    Except.ok ({ timestamp := ts, symbol := r.symbol, company := r.company,
                 current_price := cp, previous_close := pc, daily_change := dc,
                 sources := r.sources } :: rest)

/-- The body of `save_stock_data`'s `try` block: convert the price /
previous-close / daily-change strings of every row and insert the batch.
Raises (`Except.error`) when a conversion fails or the storage backend
is unavailable. -/
def saveAttempt (st : Storage) (df : List StockRecord) (ts : ℕ) :
    Except String Storage := do
  let newRows ← saveConvert df ts
  if st.available then Except.ok { st with rows := st.rows ++ newRows }
  else Except.error "storage unavailable"

/-- `save_stock_data`: runs the save attempt inside `try/except`; on any
exception it logs and falls through, returning `None` to the caller either
way.  The second component is what the caller observes. -/
def save_stock_data (st : Storage) (df : List StockRecord) (ts : ℕ) :
    Storage × Except String Unit :=
  match saveAttempt st df ts with
  | Except.ok st' => (st', Except.ok ())
  | Except.error _ => (st, Except.ok ())

/-- SQL `MAX` over a column: `NULL` (`none`) on the empty multiset. -/
def sqlMax {α : Type} [LinearOrder α] : List α → Option α
  | [] => Option.none
  | x :: xs =>
    match sqlMax xs with
    | Option.none => some x
    | some m => some (max x m)

/-- SQL `MIN` over a column: `NULL` (`none`) on the empty multiset. -/
def sqlMin {α : Type} [LinearOrder α] : List α → Option α
  | [] => Option.none
  | x :: xs =>
    match sqlMin xs with
    | Option.none => some x
    | some m => some (min x m)

/-- `MAX(timestamp)` over `stock_snapshots` (`NULL`, i.e. `none`, when the
table is empty). -/
def maxTimestamp (rows : List SnapRow) : Option ℕ := sqlMax (rows.map (·.timestamp))

/-- Rendering of a stored row back into the app-level string DataFrame, as
done by `get_latest_data`'s `CONCAT` projections. -/
def renderRow (r : SnapRow) : StockRecord :=
  { symbol := r.symbol, company := r.company,
    currentPrice := Cell.str ⟨'$' :: (fmt2 r.current_price).data⟩,
    previousClose := Cell.str ⟨'$' :: (fmt2 r.previous_close).data⟩,
    dailyChange := Cell.str ((fmt2 r.daily_change) ++ "%"),
    sources := r.sources }

/-- `get_latest_data`: selects the rows whose `timestamp` equals the
maximum timestamp (`WHERE timestamp = (SELECT MAX(timestamp) ...)`; the
comparison with a `NULL` maximum selects nothing, so an empty table yields
an empty DataFrame).  Returns `none` only when the query itself raises,
which the pure model cannot. -/
def get_latest_data (st : Storage) : Option (List StockRecord) :=
  some (((st.rows.filter (fun r => some r.timestamp == maxTimestamp st.rows)).map renderRow))

/-! ### The `daily_summary` view (`_initialize_database`) and
`get_daily_summary` -/

/-- `CAST(timestamp AS DATE)`: truncation of a second-resolution timestamp
to its calendar day. -/
def dateOf (r : SnapRow) : ℕ := r.timestamp / 86400

/-- The window partition of the view's `ROW_NUMBER` clauses:
`PARTITION BY CAST(timestamp AS DATE), symbol`. -/
def partitionRows (l : List SnapRow) (d : ℕ) (s : String) : List SnapRow :=
  l.filter (fun r => dateOf r == d && r.symbol == s)

/-- The row carrying `rn_asc = 1` in a partition: a row of minimal
`timestamp` (first such row in insertion order; the primary key makes
timestamps within a partition distinct, so the tie-break never fires). -/
def argminTs : List SnapRow → Option SnapRow
  | [] => Option.none
  | r :: rs =>
    match argminTs rs with
    | Option.none => some r
    | some m => if r.timestamp ≤ m.timestamp then some r else some m

/-- The row carrying `rn_desc = 1` in a partition: a row of maximal
`timestamp`. -/
def argmaxTs : List SnapRow → Option SnapRow
  | [] => Option.none
  | r :: rs =>
    match argmaxTs rs with
    | Option.none => some r
    | some m => if m.timestamp ≤ r.timestamp then some r else some m

/-- One row of the `daily_summary` view. -/
structure DailyRollup where
  date : ℕ
  symbol : String
  company : String
  opening_price : Option ℚ
  closing_price : Option ℚ
  high_price : Option ℚ
  low_price : Option ℚ
  average_price : Option ℚ
  opening_change : Option ℚ
  closing_change : Option ℚ
  sources : String
deriving DecidableEq, Repr

/-- Membership in a `GROUP BY date, symbol, company, sources` group,
given the partition already fixes date and symbol. -/
def inGroup (c src : String) (r : SnapRow) : Bool := r.company == c && r.sources == src

/-- The view row for the group `(d, s, c, src)`.  `opening_price` is
`MAX(CASE WHEN rn_asc = 1 THEN current_price END)` over the group: the
unique `rn_asc = 1` row of the *partition* contributes its price if it lies
in the group, otherwise the aggregate is `NULL` (likewise `closing_*` with
`rn_desc`).  `high/low/average` aggregate over the group's rows. -/
def dailySummaryRow (l : List SnapRow) (d : ℕ) (s c src : String) : DailyRollup :=
  let part := partitionRows l d s
  let grp := part.filter (inGroup c src)
  { date := d, symbol := s, company := c,
    opening_price := (argminTs part).bind
      (fun r => if inGroup c src r then some r.current_price else Option.none),
    closing_price := (argmaxTs part).bind
      (fun r => if inGroup c src r then some r.current_price else Option.none),
    high_price := sqlMax (grp.map (·.current_price)),
    low_price := sqlMin (grp.map (·.current_price)),
    average_price :=
      if grp.isEmpty then Option.none
      else some ((grp.map (·.current_price)).sum / grp.length),
    opening_change := (argminTs part).bind
      (fun r => if inGroup c src r then some r.daily_change else Option.none),
    closing_change := (argmaxTs part).bind
      (fun r => if inGroup c src r then some r.daily_change else Option.none),
    sources := src }

/-- The grouping keys `(date, symbol, company, sources)` present in the
table (each key once). -/
def summaryKeys (l : List SnapRow) : List (ℕ × String × String × String) :=
  (l.map (fun r => (dateOf r, r.symbol, r.company, r.sources))).dedup

/-- `get_daily_summary(date)`: the view rows whose `date` matches.
Returns `none` only when the query raises, which the pure model cannot. -/
def get_daily_summary (st : Storage) (d : ℕ) : Option (List DailyRollup) :=
  some (((summaryKeys st.rows).filter (fun k => k.1 == d)).map
    (fun k => dailySummaryRow st.rows k.1 k.2.1 k.2.2.1 k.2.2.2))

/-! ### The comparator (`compare_with_previous`) -/

/-- A row of the comparison DataFrame: the copied current row plus the
four comparison columns, which start out as `None`. -/
structure CompRecord where
  symbol : String
  company : String
  currentPrice : Cell
  previousClose : Cell
  dailyChange : Cell
  sources : String
  previousPrice : Cell
  priceChange : Cell
  previousDailyChange : Cell
  changeInDailyChange : Cell
deriving DecidableEq, Repr

/-- A current row with its four comparison columns still `None`. -/
def blankComp (r : StockRecord) : CompRecord :=
  { symbol := r.symbol, company := r.company, currentPrice := r.currentPrice,
    previousClose := r.previousClose, dailyChange := r.dailyChange,
    sources := r.sources,
    previousPrice := Cell.none, priceChange := Cell.none,
    previousDailyChange := Cell.none, changeInDailyChange := Cell.none }

/-- The four conversions of one comparison-loop iteration, in source
order; they run inside the per-row `try`. -/
def convQuad (p row : StockRecord) :
    Except Unit (Option ℚ × Option ℚ × Option ℚ × Option ℚ) := do
  let prev_price ← safe_price_convert p.currentPrice
  let prev_daily_change ← safe_percent_convert p.dailyChange
  let current_price ← safe_price_convert row.currentPrice
  let current_daily_change ← safe_percent_convert row.dailyChange
  Except.ok (prev_price, prev_daily_change, current_price, current_daily_change)

/-- The rest of one comparison-loop iteration once a previous row `p` was
found: run the four conversions inside the per-row `try` (an exception
leaves the row's comparison columns `None`), and write the four columns
only when all four conversions returned a value. -/
def compareFound (p row : StockRecord) : CompRecord :=
  let base := blankComp row
  match convQuad p row with
  | Except.error _ => base
  | Except.ok (pp, pdc, cp, cdc) =>
    match pp, cp, pdc, cdc with
    | some pp, some cp, some pdc, some cdc =>
      { base with
        previousPrice := Cell.str ⟨'$' :: (fmt2 pp).data⟩,
        priceChange := Cell.str ⟨'$' :: (fmt2 (cp - pp)).data⟩,
        previousDailyChange := Cell.str ((fmt2 pdc) ++ "%"),
        changeInDailyChange := Cell.str ((fmt2 (cdc - pdc)) ++ "%") }
    | _, _, _, _ => base

/-- The per-row body of `compare_with_previous`'s loop.  The previous row
is the first stored row with the same symbol (no row: the comparison
columns stay `None`). -/
def compareRow (previous : List StockRecord) (row : StockRecord) : CompRecord :=
  match previous.find? (fun p => p.symbol == row.symbol) with
  | Option.none => blankComp row
  | some p => compareFound p row

/-- `compare_with_previous`: fetches the latest stored rows and enriches
every current row independently; returns `None` if the fetch gave `None`. -/
def compare_with_previous (st : Storage) (current : List StockRecord) :
    Option (List CompRecord) :=
  match get_latest_data st with
  | Option.none => Option.none
  | some previous => some (current.map (compareRow previous))

/-! ### The alert analyzer (`analyze_price_changes`) -/

/-- A significant-price-change alert. -/
structure Alert where
  symbol : String
  company : String
  current_price : ℚ
  previous_price : ℚ
  change_pct : ℚ
  direction : String
deriving DecidableEq, Repr

/-- A daily-change alert. -/
structure DailyAlert where
  symbol : String
  company : String
  current_daily_change : ℚ
  previous_daily_change : ℚ
  change_diff : ℚ
deriving DecidableEq, Repr

/-- The `summary` tally of the alerts dictionary. -/
structure AlertSummary where
  total_symbols : ℕ
  significant_changes : ℕ
  positive_changes : ℕ
  negative_changes : ℕ
deriving DecidableEq, Repr

/-- The alerts dictionary built by `analyze_price_changes`. -/
structure Alerts where
  significant_changes : List Alert
  daily_change_alerts : List DailyAlert
  summary : AlertSummary
deriving DecidableEq, Repr

/-- `float(cell.replace(marker, ''))` as `analyze_price_changes` does it
inline: raises (`Except.error`) on a non-string cell (`AttributeError`) or
an unparseable string (`ValueError`). -/
def cellFloat (marker : Char) (c : Cell) : Except Unit ℚ :=
  match c with
  | Cell.str s =>
    match parseFloat? (stripAll marker s) with
    | some q => Except.ok q
    | Option.none => Except.error ()
  | _ => Except.error ()

/-- The body of `analyze_price_changes`' loop for one row, threading the
alerts accumulator.  Any raise propagates out of the whole loop (the only
`try` is around the entire function body). -/
def analyzeRow (threshold : ℚ) (acc : Alerts) (row : CompRecord) :
    Except Unit Alerts := do
  if row.previousPrice.isna || row.currentPrice.isna then
    Except.ok acc
  else
    let current_price ← cellFloat '$' row.currentPrice
    let previous_price ← cellFloat '$' row.previousPrice
    if previous_price = 0 then Except.error ()
    else
      let price_change_pct := (current_price - previous_price) / previous_price * 100
      let acc1 :=
        if threshold ≤ |price_change_pct| then
          { acc with
            significant_changes := acc.significant_changes ++
              [{ symbol := row.symbol, company := row.company,
                 current_price := current_price, previous_price := previous_price,
                 change_pct := price_change_pct,
                 direction := if 0 < price_change_pct then "increase" else "decrease" }],
            summary := { acc.summary with
              significant_changes := acc.summary.significant_changes + 1,
              positive_changes :=
                acc.summary.positive_changes + (if 0 < price_change_pct then 1 else 0),
              negative_changes :=
                acc.summary.negative_changes + (if 0 < price_change_pct then 0 else 1) } }
        else acc
      if row.changeInDailyChange.isna then Except.ok acc1
      else do
        let daily_change_diff ← cellFloat '%' row.changeInDailyChange
        if threshold ≤ |daily_change_diff| then do
          let cdc ← cellFloat '%' row.dailyChange
          let pdc ← cellFloat '%' row.previousDailyChange
          Except.ok { acc1 with daily_change_alerts := acc1.daily_change_alerts ++
            [{ symbol := row.symbol, company := row.company,
               current_daily_change := cdc, previous_daily_change := pdc,
               change_diff := daily_change_diff }] }
        else Except.ok acc1

/-- `analyze_price_changes`: folds the loop body over the rows; the
function-wide `try/except` turns any raise into a `None` result, dropping
every row's alerts. -/
def analyze_price_changes (threshold : ℚ) (comparison_df : List CompRecord) :
    Option Alerts :=
  let init : Alerts :=
    { significant_changes := [], daily_change_alerts := [],
      summary := { total_symbols := comparison_df.length, significant_changes := 0,
                   positive_changes := 0, negative_changes := 0 } }
  match comparison_df.foldlM (analyzeRow threshold) init with
  | Except.ok a => some a
  | Except.error _ => Option.none

/-! ### The report generator (`generate_report`) -/

/-- The sentinel returned when `analyze_price_changes` yielded `None`
(the returned dictionary always has three keys, hence is truthy, so
`if not alerts` fires exactly on `None`). -/
def sentinelNoChanges : String := "No significant changes detected."

/-- One bullet of the significant-price-changes section. -/
def alertLine (a : Alert) : String :=
  (if a.direction == "increase" then "↑" else "↓") ++ " " ++ a.symbol ++
    " (" ++ a.company ++ "): $" ++ fmt2 a.previous_price ++ " → $" ++
    fmt2 a.current_price ++ " (" ++ fmt2 a.change_pct ++ "%)"

/-- One bullet of the daily-change-alerts section. -/
def dailyAlertLine (a : DailyAlert) : String :=
  (if 0 < a.change_diff then "↑" else "↓") ++ " " ++ a.symbol ++
    " (" ++ a.company ++ "): Daily Change: " ++ fmt2 a.previous_daily_change ++
    "% → " ++ fmt2 a.current_daily_change ++ "% (Change: " ++
    fmt2 a.change_diff ++ "%)"

/-- Python's `"\n".join(lines)`. -/
def joinLines : List String → String
  | [] => ""
  | [x] => x
  | x :: xs => x ++ "\n" ++ joinLines xs

/-- The report body built from a (non-`None`) alerts dictionary. -/
def reportBody (a : Alerts) : String :=
  let header : List String :=
    ["\nPrice Movement Analysis Report", ⟨List.replicate 50 '='⟩,
     "\nSummary:",
     "Total Symbols Analyzed: " ++ natStr a.summary.total_symbols,
     "Significant Changes Detected: " ++ natStr a.summary.significant_changes,
     "Positive Changes: " ++ natStr a.summary.positive_changes,
     "Negative Changes: " ++ natStr a.summary.negative_changes]
  let sec1 : List String :=
    if a.significant_changes.isEmpty then []
    else "\nSignificant Price Changes:" :: ⟨List.replicate 50 '-'⟩ ::
      a.significant_changes.map alertLine
  let sec2 : List String :=
    if a.daily_change_alerts.isEmpty then []
    else "\nSignificant Daily Change Changes:" :: ⟨List.replicate 50 '-'⟩ ::
      a.daily_change_alerts.map dailyAlertLine
  joinLines (header ++ sec1 ++ sec2)

/-- `generate_report`: analyzes and renders; returns the fixed sentinel
exactly when `analyze_price_changes` returned `None` (`if not alerts`). -/
def generate_report (threshold : ℚ) (comparison_df : List CompRecord) : String :=
  match analyze_price_changes threshold comparison_df with
  | Option.none => sentinelNoChanges
  | some alerts => reportBody alerts

/-! ### Lemmas about the SQL aggregates and window functions -/

lemma sqlMax_eq_none_iff {α : Type} [LinearOrder α] (l : List α) :
    sqlMax l = Option.none ↔ l = [] := by
  cases l with
  | nil => simp [sqlMax]
  | cons x xs =>
    simp only [sqlMax]
    constructor
    · intro h
      cases hx : sqlMax xs <;> rw [hx] at h <;> simp at h
    · intro h; exact absurd h (by simp)

lemma sqlMax_eq_some_iff {α : Type} [LinearOrder α] (l : List α) (a : α) :
    sqlMax l = some a ↔ a ∈ l ∧ ∀ b ∈ l, b ≤ a := by
  induction l generalizing a with
  | nil => simp [sqlMax]
  | cons x xs ih =>
    simp only [sqlMax]
    cases hx : sqlMax xs with
    | none =>
      have hnil : xs = [] := (sqlMax_eq_none_iff xs).mp hx
      subst hnil
      constructor
      · intro h
        simp at h
        subst h
        simp
      · intro ⟨hmem, hle⟩
        simp at hmem
        subst hmem
        rfl
    | some m =>
      obtain ⟨hm_mem, hm_le⟩ := (ih m).mp hx
      constructor
      · intro h
        simp only [Option.some.injEq] at h
        subst h
        rcases le_total x m with hxm | hmx
        · rw [max_eq_right hxm]
          exact ⟨List.mem_cons_of_mem _ hm_mem,
            fun b hb => by
              rcases List.mem_cons.mp hb with rfl | hb
              · exact hxm
              · exact hm_le b hb⟩
        · rw [max_eq_left hmx]
          exact ⟨List.mem_cons_self _ _,
            fun b hb => by
              rcases List.mem_cons.mp hb with rfl | hb
              · exact le_refl _
              · exact le_trans (hm_le b hb) hmx⟩
      · intro ⟨hmem, hle⟩
        have h1 : x ≤ a := hle x (List.mem_cons_self _ _)
        have h2 : m ≤ a := hle m (List.mem_cons_of_mem _ hm_mem)
        have h3 : a ≤ max x m := by
          rcases List.mem_cons.mp hmem with rfl | hmem
          · exact le_max_left _ _
          · exact le_trans (hm_le a hmem) (le_max_right _ _)
        have : max x m = a := le_antisymm (max_le h1 h2) h3
        exact congrArg some this

lemma sqlMin_eq_none_iff {α : Type} [LinearOrder α] (l : List α) :
    sqlMin l = Option.none ↔ l = [] := by
  cases l with
  | nil => simp [sqlMin]
  | cons x xs =>
    simp only [sqlMin]
    constructor
    · intro h
      cases hx : sqlMin xs <;> rw [hx] at h <;> simp at h
    · intro h; exact absurd h (by simp)

lemma sqlMin_eq_some_iff {α : Type} [LinearOrder α] (l : List α) (a : α) :
    sqlMin l = some a ↔ a ∈ l ∧ ∀ b ∈ l, a ≤ b := by
  induction l generalizing a with
  | nil => simp [sqlMin]
  | cons x xs ih =>
    simp only [sqlMin]
    cases hx : sqlMin xs with
    | none =>
      have hnil : xs = [] := (sqlMin_eq_none_iff xs).mp hx
      subst hnil
      constructor
      · intro h
        simp at h
        subst h
        simp
      · intro ⟨hmem, hle⟩
        simp at hmem
        subst hmem
        rfl
    | some m =>
      obtain ⟨hm_mem, hm_le⟩ := (ih m).mp hx
      constructor
      · intro h
        simp only [Option.some.injEq] at h
        subst h
        rcases le_total x m with hxm | hmx
        · rw [min_eq_left hxm]
          exact ⟨List.mem_cons_self _ _,
            fun b hb => by
              rcases List.mem_cons.mp hb with rfl | hb
              · exact le_refl _
              · exact le_trans hxm (hm_le b hb)⟩
        · rw [min_eq_right hmx]
          exact ⟨List.mem_cons_of_mem _ hm_mem,
            fun b hb => by
              rcases List.mem_cons.mp hb with rfl | hb
              · exact hmx
              · exact hm_le b hb⟩
      · intro ⟨hmem, hle⟩
        have h1 : a ≤ x := hle x (List.mem_cons_self _ _)
        have h2 : a ≤ m := hle m (List.mem_cons_of_mem _ hm_mem)
        have h3 : min x m ≤ a := by
          rcases List.mem_cons.mp hmem with rfl | hmem
          · exact min_le_left _ _
          · exact le_trans (min_le_right _ _) (hm_le a hmem)
        have : min x m = a := le_antisymm h3 (le_min h1 h2)
        exact congrArg some this

lemma argminTs_eq_none_iff (l : List SnapRow) : argminTs l = Option.none ↔ l = [] := by
  cases l with
  | nil => simp [argminTs]
  | cons x xs =>
    simp only [argminTs]
    constructor
    · intro h
      cases hx : argminTs xs <;> rw [hx] at h <;> simp at h
      split at h <;> simp at h
    · intro h; exact absurd h (by simp)

lemma argminTs_spec (l : List SnapRow) (m : SnapRow) (h : argminTs l = some m) :
    m ∈ l ∧ ∀ r ∈ l, m.timestamp ≤ r.timestamp := by
  induction l generalizing m with
  | nil => simp [argminTs] at h
  | cons x xs ih =>
    simp only [argminTs] at h
    cases hx : argminTs xs with
    | none =>
      rw [hx] at h
      simp at h
      subst h
      have hnil : xs = [] := (argminTs_eq_none_iff xs).mp hx
      subst hnil
      simp
    | some m' =>
      rw [hx] at h
      obtain ⟨hmem, hle⟩ := ih m' hx
      have h' : (if x.timestamp ≤ m'.timestamp then some x else some m') = some m := h
      by_cases hc : x.timestamp ≤ m'.timestamp
      · rw [if_pos hc] at h'
        injection h' with h'
        subst h'
        refine ⟨List.mem_cons_self _ _, fun r hr => ?_⟩
        rcases List.mem_cons.mp hr with rfl | hr
        · exact le_refl _
        · exact le_trans hc (hle r hr)
      · rw [if_neg hc] at h'
        injection h' with h'
        subst h'
        refine ⟨List.mem_cons_of_mem _ hmem, fun r hr => ?_⟩
        rcases List.mem_cons.mp hr with rfl | hr
        · omega
        · exact hle r hr

lemma argmaxTs_eq_none_iff (l : List SnapRow) : argmaxTs l = Option.none ↔ l = [] := by
  cases l with
  | nil => simp [argmaxTs]
  | cons x xs =>
    simp only [argmaxTs]
    constructor
    · intro h
      cases hx : argmaxTs xs <;> rw [hx] at h <;> simp at h
      split at h <;> simp at h
    · intro h; exact absurd h (by simp)

lemma argmaxTs_spec (l : List SnapRow) (m : SnapRow) (h : argmaxTs l = some m) :
    m ∈ l ∧ ∀ r ∈ l, r.timestamp ≤ m.timestamp := by
  induction l generalizing m with
  | nil => simp [argmaxTs] at h
  | cons x xs ih =>
    simp only [argmaxTs] at h
    cases hx : argmaxTs xs with
    | none =>
      rw [hx] at h
      simp at h
      subst h
      have hnil : xs = [] := (argmaxTs_eq_none_iff xs).mp hx
      subst hnil
      simp
    | some m' =>
      rw [hx] at h
      obtain ⟨hmem, hle⟩ := ih m' hx
      have h' : (if m'.timestamp ≤ x.timestamp then some x else some m') = some m := h
      by_cases hc : m'.timestamp ≤ x.timestamp
      · rw [if_pos hc] at h'
        injection h' with h'
        subst h'
        refine ⟨List.mem_cons_self _ _, fun r hr => ?_⟩
        rcases List.mem_cons.mp hr with rfl | hr
        · exact le_refl _
        · exact le_trans (hle r hr) hc
      · rw [if_neg hc] at h'
        injection h' with h'
        subst h'
        refine ⟨List.mem_cons_of_mem _ hmem, fun r hr => ?_⟩
        rcases List.mem_cons.mp hr with rfl | hr
        · omega
        · exact hle r hr

/-- Reduction of the `Except` monad's bind on a success value. -/
lemma exceptBind_ok {ε α β : Type} (a : α) (f : α → Except ε β) :
    (Except.ok a >>= f : Except ε β) = f a := rfl

/-- Reduction of the `Except` monad's bind on a raise. -/
lemma exceptBind_error {ε α β : Type} (e : ε) (f : α → Except ε β) :
    (Except.error e >>= f : Except ε β) = Except.error e := rfl

/-! ### Claim C9: the daily-change computation -/

/-- C9 counterexample: the claim says that whenever both values are present
and `previous_close` is nonzero the formula is returned, but with a present
current price of `0.0` the code's truthiness test makes it return `None`
instead of the formula value `-100`. -/
theorem C9_counterexample :
    calculate_daily_change (some 0) (some 100) = Option.none ∧
    calculate_daily_change (some 0) (some 100) ≠
      some (((0 : ℚ) - 100) / 100 * 100) := by
  constructor
  · simp [calculate_daily_change]
  · simp [calculate_daily_change]

/-- C9 (amended): when both values are present and *both* are nonzero,
`calculate_daily_change` returns `((current - prev) / prev) * 100`; when
`previous_close` (or `current_price`) is zero or absent it returns `None`,
so the division is never performed with a zero divisor. -/
theorem C9_daily_change (c p : ℚ) (hc : c ≠ 0) (hp : p ≠ 0) :
    calculate_daily_change (some c) (some p) = some ((c - p) / p * 100) ∧
    (∀ x, calculate_daily_change x Option.none = Option.none) ∧
    (∀ x, calculate_daily_change x (some 0) = Option.none) ∧
    (∀ y, calculate_daily_change Option.none y = Option.none) := by
  refine ⟨by simp [calculate_daily_change, hc, hp], ?_, ?_, ?_⟩
  · intro x; cases x <;> simp [calculate_daily_change]
  · intro x; cases x <;> simp [calculate_daily_change]
  · intro y; cases y <;> simp [calculate_daily_change]

/-- C9 witness: the amended theorem applied at `current = 106`,
`previous = 100`. -/
theorem C9_daily_change_witness :
    calculate_daily_change (some 106) (some 100) =
      some (((106 : ℚ) - 100) / 100 * 100) :=
  (C9_daily_change 106 100 (by norm_num) (by norm_num)).1

/-! ### Claim C4: the aggregator's means -/

/-- Modelled from the spec's words for comparison: the list of price
values that are present (non-null), ignoring zero-ness. -/
def nonNullPrices (ds : List (Option SourceData)) : List ℚ :=
  ds.filterMap (fun d => d.bind (fun r => r.price))

/-- The price values the code actually averages: present *and truthy*
(Python `if data['price']` excludes `0.0`). -/
def contributingPrices (ds : List (Option SourceData)) : List ℚ :=
  ds.filterMap (fun d => d.bind (fun r =>
    r.price.bind (fun p => if p = 0 then Option.none else some p)))

/-- Likewise for `prev_close`. -/
def contributingPrevCloses (ds : List (Option SourceData)) : List ℚ :=
  ds.filterMap (fun d => d.bind (fun r =>
    r.prev_close.bind (fun p => if p = 0 then Option.none else some p)))

lemma calculate_average_price_eq (ds : List (Option SourceData)) :
    calculate_average_price ds =
      (if (contributingPrices ds).isEmpty then (Option.none, Option.none)
       else if (contributingPrevCloses ds).isEmpty then (Option.none, Option.none)
       else (some ((contributingPrices ds).sum / (contributingPrices ds).length),
             some ((contributingPrevCloses ds).sum / (contributingPrevCloses ds).length))) := by
  unfold calculate_average_price contributingPrices contributingPrevCloses
  have h1 : ∀ d : Option SourceData,
      (match d with
        | some r => if truthyQ r.price then r.price else Option.none
        | Option.none => Option.none) =
      d.bind (fun r => r.price.bind (fun p => if p = 0 then Option.none else some p)) := by
    intro d
    cases d with
    | none => rfl
    | some r =>
      cases hp : r.price with
      | none => simp [truthyQ, hp]
      | some q =>
        by_cases hq : q = 0 <;> simp [truthyQ, hp, hq]
  have h2 : ∀ d : Option SourceData,
      (match d with
        | some r => if truthyQ r.prev_close then r.prev_close else Option.none
        | Option.none => Option.none) =
      d.bind (fun r => r.prev_close.bind (fun p => if p = 0 then Option.none else some p)) := by
    intro d
    cases d with
    | none => rfl
    | some r =>
      cases hp : r.prev_close with
      | none => simp [truthyQ, hp]
      | some q =>
        by_cases hq : q = 0 <;> simp [truthyQ, hp, hq]
  simp only [List.filterMap_congr (fun d _ => h1 d), List.filterMap_congr (fun d _ => h2 d)]

/-- C4 counterexample: the claim says `current_price` is the mean of all
*non-null* prices, but a reading with the non-null price `0.0` is dropped
by the truthiness test: with readings priced `0.0` and `10.0` the code
returns `10.0`, not the claimed mean `5.0`. -/
theorem C4_counterexample :
    (calculate_average_price
        [some { price := some 0, prev_close := some 10 },
         some { price := some 10, prev_close := some 10 }]).1 = some 10 ∧
    nonNullPrices
        [some { price := some 0, prev_close := some 10 },
         some { price := some 10, prev_close := some 10 }] = [0, 10] ∧
    (10 : ℚ) ≠ ((0 : ℚ) + 10) / 2 := by
  refine ⟨?_, by simp [nonNullPrices], by norm_num⟩
  simp [calculate_average_price, truthyQ]

/-- C4 (amended): `current_price` is the arithmetic mean of the *truthy*
(present and nonzero) price values and `previous_close` the mean of the
truthy previous-close values; if either contributing set is empty the
aggregator returns no values at all (`(None, None)`, with a warning). -/
theorem C4_average_price (ds : List (Option SourceData))
    (h1 : contributingPrices ds ≠ []) (h2 : contributingPrevCloses ds ≠ []) :
    calculate_average_price ds =
      (some ((contributingPrices ds).sum / (contributingPrices ds).length),
       some ((contributingPrevCloses ds).sum / (contributingPrevCloses ds).length)) ∧
    (∀ ds' : List (Option SourceData),
      contributingPrices ds' = [] ∨ contributingPrevCloses ds' = [] →
      calculate_average_price ds' = (Option.none, Option.none)) := by
  constructor
  · rw [calculate_average_price_eq]
    simp [List.isEmpty_iff, h1, h2]
  · intro ds' h
    rw [calculate_average_price_eq]
    rcases h with h | h <;> simp [List.isEmpty_iff, h]

/-- C4 witness: the amended theorem applied to two truthy readings. -/
theorem C4_average_price_witness :
    calculate_average_price
        [some { price := some 4, prev_close := some 8 },
         some { price := some 6, prev_close := some 2 }] =
      (some ((contributingPrices
          [some { price := some 4, prev_close := some 8 },
           some { price := some 6, prev_close := some 2 }]).sum /
        (contributingPrices
          [some { price := some 4, prev_close := some 8 },
           some { price := some 6, prev_close := some 2 }]).length),
       some ((contributingPrevCloses
          [some { price := some 4, prev_close := some 8 },
           some { price := some 6, prev_close := some 2 }]).sum /
        (contributingPrevCloses
          [some { price := some 4, prev_close := some 8 },
           some { price := some 6, prev_close := some 2 }]).length)) :=
  (C4_average_price _ (by simp [contributingPrices])
    (by simp [contributingPrevCloses])).1

/-! ### Claim C1: save and storage failures -/

/-- An unavailable storage backend with no rows. -/
def stDown : Storage := { available := false, rows := [] }

/-- A well-formed one-row batch. -/
def dfOne : List StockRecord :=
  [{ symbol := "AAPL", company := "Apple Inc.",
     currentPrice := Cell.str "$100.00", previousClose := Cell.str "$99.00",
     dailyChange := Cell.str "1.01%", sources := "Yahoo Finance" }]

/-- C1 counterexample: with the storage backend unavailable the write
attempt raises, yet `save_stock_data` returns normally (`Except.ok ()`),
so the caller cannot observe the aborted batch: the failure is swallowed,
not propagated. -/
theorem C1_counterexample :
    saveAttempt stDown dfOne 0 = Except.error "storage unavailable" ∧
    (save_stock_data stDown dfOne 0).2 = Except.ok () ∧
    (save_stock_data stDown dfOne 0).1.rows = [] := by
  refine ⟨?_, ?_, ?_⟩ <;>
    simp +decide [saveAttempt, saveConvert, save_stock_data, stDown, dfOne,
      convertCol, stripAll, parseFloat?, charsToNat, charVal, exceptBind_ok, exceptBind_error]

/-- C1 (amended): every failure of the storage write (unavailable backend,
conversion/insert error) is caught inside `save_stock_data` and only
logged: the function returns `Except.ok ()` to its caller unconditionally,
and on a failed attempt the stored rows are unchanged — silent data loss
the caller cannot observe. -/
theorem C1_save_swallows (st : Storage) (df : List StockRecord) (ts : ℕ) :
    (save_stock_data st df ts).2 = Except.ok () ∧
    (∀ e, saveAttempt st df ts = Except.error e →
      (save_stock_data st df ts).1 = st) := by
  constructor
  · unfold save_stock_data
    cases h : saveAttempt st df ts <;> simp
  · intro e he
    unfold save_stock_data
    rw [he]

/-- C1 witness: the amended theorem applied to the unavailable backend. -/
theorem C1_save_swallows_witness :
    (save_stock_data stDown dfOne 0).2 = Except.ok () ∧
    (save_stock_data stDown dfOne 0).1 = stDown :=
  ⟨(C1_save_swallows stDown dfOne 0).1,
   (C1_save_swallows stDown dfOne 0).2 "storage unavailable"
     (by simp +decide [saveAttempt, saveConvert, stDown, dfOne, convertCol,
       stripAll, parseFloat?, charsToNat, charVal, exceptBind_ok, exceptBind_error])⟩

/-! ### Claim C8: price string round-trip -/

/-- C8: formatting any nonnegative two-decimal price (given as cents) as a
dollar string and parsing it back with `safe_price_convert` recovers the
exact value; the conversion also passes floats through unchanged and
strips thousands separators. -/
theorem C8_price_roundtrip :
    (∀ cents : ℕ, safe_price_convert (Cell.str (fmtDollar cents)) =
        Except.ok (some ((cents : ℚ) / 100))) ∧
    (∀ q : ℚ, safe_price_convert (Cell.num q) = Except.ok (some q)) ∧
    safe_price_convert (Cell.str "$1,234.56") = Except.ok (some ((123456 : ℚ) / 100)) := by
  refine ⟨?_, fun q => rfl, ?_⟩
  · intro cents
    show (match parseFloat? (stripAll ',' (stripAll '$' (fmtDollar cents))) with
      | some q => Except.ok (some q)
      | Option.none => Except.error ()) = Except.ok (some ((cents : ℚ) / 100))
    rw [stripAll_fmtDollar, stripAll_fmtCents ',' cents (by decide) (by decide),
      parseFloat?_fmtCents]
  · show (match parseFloat? (stripAll ',' (stripAll '$' "$1,234.56")) with
      | some q => Except.ok (some q)
      | Option.none => Except.error ()) = Except.ok (some ((123456 : ℚ) / 100))
    have : parseFloat? (stripAll ',' (stripAll '$' "$1,234.56")) =
        some ((123456 : ℚ) / 100) := by
      simp +decide [parseFloat?, stripAll, charsToNat, charVal]
      norm_num
    rw [this]

/-- C8 witness: the round trip at `$123.45`. -/
theorem C8_price_roundtrip_witness :
    safe_price_convert (Cell.str (fmtDollar 12345)) =
      Except.ok (some ((12345 : ℚ) / 100)) :=
  C8_price_roundtrip.1 12345

/-! ### Claim C10: all-or-nothing comparison columns -/

/-- A previous-poll row whose price and daily change convert cleanly. -/
def prevRecC10 : StockRecord :=
  { symbol := "AAPL", company := "Apple Inc.",
    currentPrice := Cell.str "$100.00", previousClose := Cell.str "$99.00",
    dailyChange := Cell.str "1.00%", sources := "Yahoo Finance" }

/-- A current row whose two prices convert cleanly but whose
`Daily Change` cell is `None` (so `safe_percent_convert` returns no
value). -/
def curRecC10 : StockRecord :=
  { symbol := "AAPL", company := "Apple Inc.",
    currentPrice := Cell.str "$106.00", previousClose := Cell.str "$100.00",
    dailyChange := Cell.none, sources := "Yahoo Finance" }

/-- C10: the four comparison columns are written all-or-nothing — for
every row either all four are set or all four are still `None`; in
particular, with both prices converting successfully but the current
daily change yielding no value, `Previous Price` and `Price Change`
remain unset. -/
theorem C10_all_or_nothing :
    (∀ (previous : List StockRecord) (row : StockRecord),
      (((compareRow previous row).previousPrice = Cell.none ∧
        (compareRow previous row).priceChange = Cell.none ∧
        (compareRow previous row).previousDailyChange = Cell.none ∧
        (compareRow previous row).changeInDailyChange = Cell.none) ∨
       ((compareRow previous row).previousPrice ≠ Cell.none ∧
        (compareRow previous row).priceChange ≠ Cell.none ∧
        (compareRow previous row).previousDailyChange ≠ Cell.none ∧
        (compareRow previous row).changeInDailyChange ≠ Cell.none))) ∧
    (safe_price_convert curRecC10.currentPrice = Except.ok (some 106) ∧
     safe_price_convert prevRecC10.currentPrice = Except.ok (some 100) ∧
     safe_percent_convert curRecC10.dailyChange = Except.ok Option.none ∧
     compareRow [prevRecC10] curRecC10 = blankComp curRecC10 ∧
     (blankComp curRecC10).previousPrice = Cell.none ∧
     (blankComp curRecC10).priceChange = Cell.none) := by
  constructor
  · intro previous row
    unfold compareRow compareFound
    split
    · left; exact ⟨rfl, rfl, rfl, rfl⟩
    · split
      · left; exact ⟨rfl, rfl, rfl, rfl⟩
      · split
        · right
          refine ⟨?_, ?_, ?_, ?_⟩ <;> simp
        · left; exact ⟨rfl, rfl, rfl, rfl⟩
  · refine ⟨?_, ?_, rfl, ?_, rfl, rfl⟩
    · show (match parseFloat? (stripAll ',' (stripAll '$' "$106.00")) with
        | some q => Except.ok (some q)
        | Option.none => Except.error ()) = Except.ok (some (106 : ℚ))
      have : parseFloat? (stripAll ',' (stripAll '$' "$106.00")) = some (106 : ℚ) := by
        simp +decide [parseFloat?, stripAll, charsToNat, charVal]
      rw [this]
    · show (match parseFloat? (stripAll ',' (stripAll '$' "$100.00")) with
        | some q => Except.ok (some q)
        | Option.none => Except.error ()) = Except.ok (some (100 : ℚ))
      have : parseFloat? (stripAll ',' (stripAll '$' "$100.00")) = some (100 : ℚ) := by
        simp +decide [parseFloat?, stripAll, charsToNat, charVal]
      rw [this]
    · unfold compareRow
      simp +decide [prevRecC10, curRecC10, safe_price_convert, safe_percent_convert,
        stripAll, parseFloat?, charsToNat, charVal, exceptBind_ok, exceptBind_error]

/-! ### Claim C2: `latest()` semantics -/

/-- C2 counterexample: on an empty table `get_latest_data` returns an
empty DataFrame (`some []`), not `none` as the claim requires (`none`
arises only from a query exception). -/
theorem C2_counterexample :
    get_latest_data { available := true, rows := [] } = some [] ∧
    get_latest_data { available := true, rows := [] } ≠ Option.none := by
  exact ⟨rfl, by simp [get_latest_data]⟩

lemma maxFilter_eq (rows : List SnapRow) (r : SnapRow) (hr : r ∈ rows) :
    (some r.timestamp == maxTimestamp rows) =
      decide (∀ r' ∈ rows, r'.timestamp ≤ r.timestamp) := by
  by_cases h : ∀ r' ∈ rows, r'.timestamp ≤ r.timestamp
  · have hmax : maxTimestamp rows = some r.timestamp := by
      unfold maxTimestamp
      exact (sqlMax_eq_some_iff _ _).mpr ⟨List.mem_map_of_mem _ hr, by
        intro b hb
        obtain ⟨r', hr', rfl⟩ := List.mem_map.mp hb
        exact h r' hr'⟩
    rw [hmax, decide_eq_true h]
    simp
  · rw [decide_eq_false h]
    cases hmax : maxTimestamp rows with
    | none => rfl
    | some m =>
      unfold maxTimestamp at hmax
      obtain ⟨hm_mem, hm_le⟩ := (sqlMax_eq_some_iff _ _).mp hmax
      push_neg at h
      obtain ⟨r', hr', hlt⟩ := h
      have h1 : r'.timestamp ≤ m := hm_le _ (List.mem_map_of_mem _ hr')
      have hne : r.timestamp ≠ m := by omega
      exact beq_eq_false_iff_ne.mpr (by simpa using hne)

/-- C2 (amended): `get_latest_data` returns exactly the rows whose
`captured_at` is maximal in storage (every row at least as recent as all
others), i.e. the most recent full poll cycle; on an *empty* store it
returns an empty row list (`some []`), not `none`. -/
theorem C2_latest (st : Storage) :
    get_latest_data st =
      some ((st.rows.filter
        (fun r => decide (∀ r' ∈ st.rows, r'.timestamp ≤ r.timestamp))).map renderRow) ∧
    (st.rows = [] → get_latest_data st = some []) := by
  constructor
  · unfold get_latest_data
    rw [List.filter_congr (fun r hr => maxFilter_eq st.rows r hr)]
  · intro h
    simp [get_latest_data, h]

/-- C2 witness: the amended theorem applied to the empty store. -/
theorem C2_latest_witness :
    get_latest_data { available := true, rows := [] } = some [] :=
  (C2_latest { available := true, rows := [] }).2 rfl

/-! ### Claim C3: significant-price-change alerts -/

lemma cellFloat_fmtDollar (n : ℕ) :
    cellFloat '$' (Cell.str (fmtDollar n)) = Except.ok ((n : ℚ) / 100) := by
  show (match parseFloat? (stripAll '$' (fmtDollar n)) with
    | some q => Except.ok q
    | Option.none => Except.error ()) = Except.ok ((n : ℚ) / 100)
  rw [stripAll_fmtDollar, parseFloat?_fmtCents]

/-- A comparison record carrying just the two price strings (daily-change
cells `None`), as a current row looks right after a comparison in which
only the price fields mattered. -/
def priceOnlyRec (curCents prevCents : ℕ) : CompRecord :=
  { symbol := "AAPL", company := "Apple Inc.",
    currentPrice := Cell.str (fmtDollar curCents),
    previousClose := Cell.none, dailyChange := Cell.none,
    sources := "Yahoo Finance",
    previousPrice := Cell.str (fmtDollar prevCents),
    priceChange := Cell.none, previousDailyChange := Cell.none,
    changeInDailyChange := Cell.none }

lemma analyze_priceOnly (c p : ℕ) (threshold : ℚ) (hp : p ≠ 0) :
    analyze_price_changes threshold [priceOnlyRec c p] = some
      (if threshold ≤ |((c : ℚ)/100 - (p : ℚ)/100) / ((p : ℚ)/100) * 100| then
        { significant_changes :=
            [{ symbol := "AAPL", company := "Apple Inc.",
               current_price := (c : ℚ)/100, previous_price := (p : ℚ)/100,
               change_pct := ((c : ℚ)/100 - (p : ℚ)/100) / ((p : ℚ)/100) * 100,
               direction := if 0 < ((c : ℚ)/100 - (p : ℚ)/100) / ((p : ℚ)/100) * 100
                 then "increase" else "decrease" }],
          daily_change_alerts := [],
          summary :=
            { total_symbols := 1, significant_changes := 1,
              positive_changes :=
                if 0 < ((c : ℚ)/100 - (p : ℚ)/100) / ((p : ℚ)/100) * 100 then 1 else 0,
              negative_changes :=
                if 0 < ((c : ℚ)/100 - (p : ℚ)/100) / ((p : ℚ)/100) * 100 then 0 else 1 } }
       else
        { significant_changes := [], daily_change_alerts := [],
          summary :=
            { total_symbols := 1, significant_changes := 0,
              positive_changes := 0, negative_changes := 0 } }) := by
  have hpnz : ((p : ℕ) : ℚ) / 100 ≠ 0 := by
    simp [Nat.cast_eq_zero]
    exact hp
  unfold analyze_price_changes
  simp only [List.foldlM, List.length_cons, List.length_nil]
  unfold analyzeRow
  simp only [priceOnlyRec, Cell.isna, Bool.or_self, Bool.false_eq_true, if_false,
    eq_self_iff_true, if_true, cellFloat_fmtDollar, exceptBind_ok, if_neg hpnz]
  exact congrArg some (by split <;> simp)

/-- C3: for every pair of two-decimal prices (given as cents) with the
previous price nonzero, `analyze_price_changes` on a record carrying them
emits a significant-price-change alert exactly when
`|((current - previous) / previous) * 100| ≥ threshold`, recomputing the
percentage from the two prices; with $100.00 → $106.00 at threshold 5 it
emits exactly one alert with `change_pct = 6` and direction `increase`,
and with $100.00 → $104.00 it emits none. -/
theorem C3_significant_alerts :
    (∀ (c p : ℕ) (threshold : ℚ), p ≠ 0 →
      ∃ a : Alerts, analyze_price_changes threshold [priceOnlyRec c p] = some a ∧
        a.daily_change_alerts = [] ∧
        a.significant_changes =
          (if threshold ≤ |((c : ℚ)/100 - (p : ℚ)/100) / ((p : ℚ)/100) * 100| then
            [{ symbol := "AAPL", company := "Apple Inc.",
                 current_price := (c : ℚ)/100, previous_price := (p : ℚ)/100,
                 change_pct := ((c : ℚ)/100 - (p : ℚ)/100) / ((p : ℚ)/100) * 100,
                 direction := if 0 < ((c : ℚ)/100 - (p : ℚ)/100) / ((p : ℚ)/100) * 100
                   then "increase" else "decrease" }]
           else [])) ∧
    (analyze_price_changes 5 [priceOnlyRec 10600 10000]).map
        (fun a => a.significant_changes) =
      some [{ symbol := "AAPL", company := "Apple Inc.", current_price := 106,
                previous_price := 100, change_pct := 6, direction := "increase" }] ∧
    (analyze_price_changes 5 [priceOnlyRec 10400 10000]).map
        (fun a => a.significant_changes) = some [] := by
  refine ⟨?_, ?_, ?_⟩
  · intro c p threshold hp
    rw [analyze_priceOnly c p threshold hp]
    refine ⟨_, rfl, ?_, ?_⟩ <;> split <;> rfl
  · rw [analyze_priceOnly 10600 10000 5 (by norm_num)]
    norm_num
  · rw [analyze_priceOnly 10400 10000 5 (by norm_num)]
    norm_num

/-- C3 witness: the universal part applied at $106.00 / $100.00 with
threshold 5. -/
theorem C3_significant_alerts_witness :
    ∃ a : Alerts, analyze_price_changes 5 [priceOnlyRec 10600 10000] = some a ∧
      a.daily_change_alerts = [] ∧
      a.significant_changes =
        (if (5 : ℚ) ≤ |((10600 : ℚ)/100 - (10000 : ℚ)/100) / ((10000 : ℚ)/100) * 100| then
          [{ symbol := "AAPL", company := "Apple Inc.",
               current_price := (10600 : ℚ)/100, previous_price := (10000 : ℚ)/100,
               change_pct := ((10600 : ℚ)/100 - (10000 : ℚ)/100) / ((10000 : ℚ)/100) * 100,
               direction := if 0 < ((10600 : ℚ)/100 - (10000 : ℚ)/100) / ((10000 : ℚ)/100) * 100
                 then "increase" else "decrease" }]
         else []) :=
  C3_significant_alerts.1 10600 10000 5 (by norm_num)

/-! ### Claim C7: recovery from malformed numeric strings -/

/-- A comparison row whose current price string is malformed but whose
other cells are unobjectionable. -/
def badComp : CompRecord :=
  { symbol := "BAD", company := "Bad Co",
    currentPrice := Cell.str "abc", previousClose := Cell.none,
    dailyChange := Cell.none, sources := "Yahoo Finance",
    previousPrice := Cell.str "$100.00", priceChange := Cell.none,
    previousDailyChange := Cell.none, changeInDailyChange := Cell.none }

/-- A fully well-formed comparison row with a 100% price jump. -/
def goodComp : CompRecord :=
  { symbol := "GOOD", company := "Good Co",
    currentPrice := Cell.str "$200.00", previousClose := Cell.none,
    dailyChange := Cell.none, sources := "Yahoo Finance",
    previousPrice := Cell.str "$100.00", priceChange := Cell.none,
    previousDailyChange := Cell.none, changeInDailyChange := Cell.none }

/-- The comparison row with a malformed price string makes the analyzer's
loop body raise, whatever the accumulator. -/
lemma analyzeRow_badComp (threshold : ℚ) (acc : Alerts) :
    analyzeRow threshold acc badComp = Except.error () := by
  unfold analyzeRow
  simp +decide [badComp, cellFloat, stripAll, parseFloat?, Cell.isna,
    exceptBind_ok, exceptBind_error]

/-- A malformed record anywhere makes the whole analysis return `None`
when it is reached; in particular at the head of the batch. -/
lemma analyze_badComp_head (threshold : ℚ) (post : List CompRecord) :
    analyze_price_changes threshold (badComp :: post) = Option.none := by
  unfold analyze_price_changes
  simp only [List.foldlM, analyzeRow_badComp, exceptBind_error]

/-- C7 counterexample: in `analyze_price_changes` one record's malformed
price string aborts the whole batch (result `None`), dropping the other
record's alert, which the same analyzer does emit when the record is alone
in the batch. -/
theorem C7_counterexample :
    analyze_price_changes 5 [badComp, goodComp] = Option.none ∧
    (analyze_price_changes 5 [goodComp]).map
      (fun a => a.significant_changes.length) = some 1 := by
  constructor
  · unfold analyze_price_changes analyzeRow
    simp +decide [badComp, cellFloat, stripAll, parseFloat?, exceptBind_ok,
      exceptBind_error, List.foldlM, Cell.isna]
  · unfold analyze_price_changes analyzeRow
    have h200 : cellFloat '$' (Cell.str "$200.00") = Except.ok (200 : ℚ) := by
      show (match parseFloat? (stripAll '$' "$200.00") with
        | some q => Except.ok q
        | Option.none => Except.error ()) = Except.ok (200 : ℚ)
      have : parseFloat? (stripAll '$' "$200.00") = some (200 : ℚ) := by
        simp +decide [parseFloat?, stripAll, charsToNat, charVal]
      rw [this]
    have h100 : cellFloat '$' (Cell.str "$100.00") = Except.ok (100 : ℚ) := by
      show (match parseFloat? (stripAll '$' "$100.00") with
        | some q => Except.ok q
        | Option.none => Except.error ()) = Except.ok (100 : ℚ)
      have : parseFloat? (stripAll '$' "$100.00") = some (100 : ℚ) := by
        simp +decide [parseFloat?, stripAll, charsToNat, charVal]
      rw [this]
    simp only [goodComp, List.foldlM, List.length_cons, List.length_nil, Cell.isna,
      Bool.or_self, Bool.false_eq_true, if_false, eq_self_iff_true, if_true,
      h200, h100, exceptBind_ok]
    norm_num

/-- C7 (amended): in `compare_with_previous` a malformed numeric string is
recovered per record — that row's comparison columns stay `None` while
every other row is still processed independently (the comparison is a
per-row map); but in `analyze_price_changes` a malformed numeric string in
any record aborts the entire analysis, returning no result and dropping
every record's alerts. -/
theorem C7_per_record_recovery :
    (∀ (previous : List StockRecord) (row : StockRecord) (s : String),
      row.currentPrice = Cell.str s →
      parseFloat? (stripAll ',' (stripAll '$' s)) = Option.none →
      compareRow previous row = blankComp row) ∧
    (∀ (st : Storage) (current : List StockRecord) (previous : List StockRecord),
      get_latest_data st = some previous →
      compare_with_previous st current = some (current.map (compareRow previous))) ∧
    (∀ (threshold : ℚ) (post : List CompRecord),
      analyze_price_changes threshold (badComp :: post) = Option.none) := by
  refine ⟨?_, ?_, ?_⟩
  · intro previous row s hrow hbad
    have hconv : safe_price_convert row.currentPrice = Except.error () := by
      rw [hrow]
      show (match parseFloat? (stripAll ',' (stripAll '$' s)) with
        | some q => Except.ok (some q)
        | Option.none => Except.error ()) = Except.error ()
      rw [hbad]
    unfold compareRow
    cases hf : previous.find? (fun p => p.symbol == row.symbol) with
    | none => rfl
    | some p =>
      have hq : convQuad p row = Except.error () := by
        unfold convQuad
        cases h1 : safe_price_convert p.currentPrice with
        | error e => cases e; rfl
        | ok pp =>
          cases h2 : safe_percent_convert p.dailyChange with
          | error e => cases e; rfl
          | ok pdc => simp [exceptBind_ok, hconv, exceptBind_error]
      show compareFound p row = blankComp row
      unfold compareFound
      rw [hq]
  · intro st current previous hprev
    unfold compare_with_previous
    rw [hprev]
  · intro threshold post
    unfold analyze_price_changes
    simp only [List.foldlM, analyzeRow_badComp, exceptBind_error]

/-- C7 witness: the amended theorem applied to a concrete malformed row,
a one-row current batch, and a one-record analyzer batch. -/
theorem C7_per_record_recovery_witness :
    compareRow []
      { symbol := "BAD", company := "Bad Co", currentPrice := Cell.str "abc",
        previousClose := Cell.none, dailyChange := Cell.none,
        sources := "Yahoo Finance" } =
      blankComp
        { symbol := "BAD", company := "Bad Co", currentPrice := Cell.str "abc",
          previousClose := Cell.none, dailyChange := Cell.none,
          sources := "Yahoo Finance" } ∧
    compare_with_previous { available := true, rows := [] } [] = some [] ∧
    analyze_price_changes 5 [badComp] = Option.none := by
  refine ⟨?_, ?_, ?_⟩
  · exact C7_per_record_recovery.1 [] _ "abc" rfl
      (by simp +decide [parseFloat?, stripAll])
  · exact C7_per_record_recovery.2.1 { available := true, rows := [] } [] [] rfl
  · exact C7_per_record_recovery.2.2 5 []

/-! ### Claim C6: the "no significant changes" sentinel -/

lemma joinLines_head (a : String) (l : List String) :
    ∃ t, (joinLines (a :: l)).data = a.data ++ t := by
  cases l with
  | nil => exact ⟨[], by simp [joinLines]⟩
  | cons b bs =>
    refine ⟨("\n" ++ joinLines (b :: bs)).data, ?_⟩
    show (a ++ "\n" ++ joinLines (b :: bs)).data = _
    rw [String.data_append, String.data_append, String.data_append,
      List.append_assoc]

lemma joinLines_ne_of_head (a : String) (l : List String) (s : String)
    (h : ∀ t, a.data ++ t ≠ s.data) : joinLines (a :: l) ≠ s := by
  intro heq
  obtain ⟨t, ht⟩ := joinLines_head a l
  exact h t (by rw [← ht, heq])

lemma reportBody_ne_sentinel (a : Alerts) : reportBody a ≠ sentinelNoChanges := by
  unfold reportBody
  simp only [List.cons_append]
  apply joinLines_ne_of_head
  intro t hdata
  rw [show "\nPrice Movement Analysis Report".data =
        '\n' :: "Price Movement Analysis Report".data from by decide,
    List.cons_append,
    show sentinelNoChanges.data =
        'N' :: "o significant changes detected.".data from by decide] at hdata
  injection hdata with h1 _
  exact absurd h1 (by decide)

/-- C6 counterexample: with an empty record set `analyze_price_changes`
returns a dictionary with empty alert lists — yet the report is the full
summary text, not the claimed sentinel (a nonempty dict is truthy, so
`if not alerts` never fires on it). -/
theorem C6_counterexample :
    analyze_price_changes 5 [] =
      some { significant_changes := [], daily_change_alerts := [],
             summary := { total_symbols := 0, significant_changes := 0,
                          positive_changes := 0, negative_changes := 0 } } ∧
    generate_report 5 [] ≠ sentinelNoChanges := by
  constructor
  · rfl
  · show reportBody _ ≠ sentinelNoChanges
    exact reportBody_ne_sentinel _

/-- C6 (amended): `generate_report` returns the fixed sentinel exactly
when `analyze_price_changes` produced no result at all (`None`, i.e. the
analysis raised); when the analysis succeeds with zero alerts — empty
records or no threshold crossed — the report is the full summary text,
never the sentinel, so the two zero-alert cases still render the same
non-sentinel text as each other. -/
theorem C6_sentinel_iff (threshold : ℚ) (comparison_df : List CompRecord) :
    generate_report threshold comparison_df = sentinelNoChanges ↔
      analyze_price_changes threshold comparison_df = Option.none := by
  unfold generate_report
  cases h : analyze_price_changes threshold comparison_df with
  | none => simp
  | some a =>
    simp only [Option.some.injEq]
    constructor
    · intro heq
      exact absurd heq (reportBody_ne_sentinel a)
    · intro hfalse
      cases hfalse

/-- C6 witness: the iff applied to the batch whose malformed record makes
the analysis fail, and to the empty batch where it succeeds. -/
theorem C6_sentinel_iff_witness :
    generate_report 5 [badComp] = sentinelNoChanges ∧
    ¬ generate_report 5 [] = sentinelNoChanges :=
  ⟨(C6_sentinel_iff 5 [badComp]).mpr (analyze_badComp_head 5 []),
   fun h => by
    have h2 := (C6_sentinel_iff 5 []).mp h
    rw [show analyze_price_changes 5 [] =
        some { significant_changes := [], daily_change_alerts := [],
               summary := { total_symbols := 0, significant_changes := 0,
                            positive_changes := 0, negative_changes := 0 } } from rfl] at h2
    cases h2⟩

/-! ### Claim C5: the daily summary -/

lemma argminTs_unique (l : List SnapRow) (m r₀ : SnapRow)
    (hdist : l.Pairwise (fun a b => a.timestamp ≠ b.timestamp))
    (hmin : argminTs l = some m) (h₀ : r₀ ∈ l)
    (h₀min : ∀ r ∈ l, r₀.timestamp ≤ r.timestamp) : m = r₀ := by
  obtain ⟨hm_mem, hm_le⟩ := argminTs_spec l m hmin
  by_contra hne
  have hts : m.timestamp ≠ r₀.timestamp :=
    List.Pairwise.forall (fun a b h => h.symm) hdist hm_mem h₀ hne
  have h1 : m.timestamp ≤ r₀.timestamp := hm_le r₀ h₀
  have h2 : r₀.timestamp ≤ m.timestamp := h₀min m hm_mem
  omega

lemma argmaxTs_unique (l : List SnapRow) (m r₁ : SnapRow)
    (hdist : l.Pairwise (fun a b => a.timestamp ≠ b.timestamp))
    (hmax : argmaxTs l = some m) (h₁ : r₁ ∈ l)
    (h₁max : ∀ r ∈ l, r.timestamp ≤ r₁.timestamp) : m = r₁ := by
  obtain ⟨hm_mem, hm_le⟩ := argmaxTs_spec l m hmax
  by_contra hne
  have hts : m.timestamp ≠ r₁.timestamp :=
    List.Pairwise.forall (fun a b h => h.symm) hdist hm_mem h₁ hne
  have h1 : m.timestamp ≤ r₁.timestamp := h₁max m hm_mem
  have h2 : r₁.timestamp ≤ m.timestamp := hm_le r₁ h₁
  omega

/-- One snapshot of the three-capture example. -/
def demoRow (ts : ℕ) (price chg : ℚ) : SnapRow :=
  { timestamp := ts, symbol := "AAPL", company := "Apple Inc.",
    current_price := price, previous_close := 99, daily_change := chg,
    sources := "Yahoo Finance" }

/-- Three captures of prices 100, 105, 98, in time order, on one day. -/
def demo3 : List SnapRow := [demoRow 100 100 1, demoRow 200 105 2, demoRow 300 98 3]

/-- C5 (amended): for every `(date, symbol, company, sources)` group such
that all rows of the `(date, symbol)` partition share that company and
sources value (so group = partition) and — per the primary key — have
distinct timestamps, the view row reports `opening_price`/`opening_change`
from the row of minimum `captured_at`, `closing_price`/`closing_change`
from the row of maximum `captured_at`, `high`/`low` as max/min price and
`average_price` as the mean; in particular three captures of prices
`[100, 105, 98]` in time order yield opening 100, closing 98, high 105,
low 98, average 101. -/
theorem C5_daily_summary :
    (∀ (l : List SnapRow) (d : ℕ) (s c src : String) (r₀ r₁ : SnapRow),
      (∀ r ∈ partitionRows l d s, r.company = c ∧ r.sources = src) →
      (partitionRows l d s).Pairwise (fun a b => a.timestamp ≠ b.timestamp) →
      r₀ ∈ partitionRows l d s →
      (∀ r ∈ partitionRows l d s, r₀.timestamp ≤ r.timestamp) →
      r₁ ∈ partitionRows l d s →
      (∀ r ∈ partitionRows l d s, r.timestamp ≤ r₁.timestamp) →
      (dailySummaryRow l d s c src).opening_price = some r₀.current_price ∧
      (dailySummaryRow l d s c src).closing_price = some r₁.current_price ∧
      (∃ q, (dailySummaryRow l d s c src).high_price = some q ∧
        q ∈ (partitionRows l d s).map (fun r => r.current_price) ∧
        ∀ x ∈ (partitionRows l d s).map (fun r => r.current_price), x ≤ q) ∧
      (∃ q, (dailySummaryRow l d s c src).low_price = some q ∧
        q ∈ (partitionRows l d s).map (fun r => r.current_price) ∧
        ∀ x ∈ (partitionRows l d s).map (fun r => r.current_price), q ≤ x) ∧
      (dailySummaryRow l d s c src).average_price =
        some (((partitionRows l d s).map (fun r => r.current_price)).sum /
          (partitionRows l d s).length) ∧
      (dailySummaryRow l d s c src).opening_change = some r₀.daily_change ∧
      (dailySummaryRow l d s c src).closing_change = some r₁.daily_change) ∧
    get_daily_summary { available := true, rows := demo3 } 0 =
      some [{ date := 0, symbol := "AAPL", company := "Apple Inc.",
              opening_price := some 100, closing_price := some 98,
              high_price := some 105, low_price := some 98,
              average_price := some 101,
              opening_change := some 1, closing_change := some 3,
              sources := "Yahoo Finance" }] := by
  constructor
  · intro l d s c src r₀ r₁ hconst hdist h₀ h₀min h₁ h₁max
    have hgrp : (partitionRows l d s).filter (inGroup c src) = partitionRows l d s :=
      List.filter_eq_self.mpr (fun r hr => by
        simp [inGroup, (hconst r hr).1, (hconst r hr).2])
    have hne : partitionRows l d s ≠ [] := fun h => by simp [h] at h₀
    obtain ⟨m0, hm0⟩ : ∃ m0, argminTs (partitionRows l d s) = some m0 := by
      cases hm : argminTs (partitionRows l d s) with
      | none => exact absurd ((argminTs_eq_none_iff _).mp hm) hne
      | some m => exact ⟨m, rfl⟩
    obtain ⟨m1, hm1⟩ : ∃ m1, argmaxTs (partitionRows l d s) = some m1 := by
      cases hm : argmaxTs (partitionRows l d s) with
      | none => exact absurd ((argmaxTs_eq_none_iff _).mp hm) hne
      | some m => exact ⟨m, rfl⟩
    have hm0r : m0 = r₀ := argminTs_unique _ _ _ hdist hm0 h₀ h₀min
    have hm1r : m1 = r₁ := argmaxTs_unique _ _ _ hdist hm1 h₁ h₁max
    have hg0 : inGroup c src r₀ = true := by
      simp [inGroup, (hconst r₀ h₀).1, (hconst r₀ h₀).2]
    have hg1 : inGroup c src r₁ = true := by
      simp [inGroup, (hconst r₁ h₁).1, (hconst r₁ h₁).2]
    refine ⟨?_, ?_, ?_, ?_, ?_, ?_, ?_⟩
    · show (argminTs (partitionRows l d s)).bind _ = _
      rw [hm0, hm0r]
      simp [hg0]
    · show (argmaxTs (partitionRows l d s)).bind _ = _
      rw [hm1, hm1r]
      simp [hg1]
    · show ∃ q, sqlMax (((partitionRows l d s).filter (inGroup c src)).map
          (fun r => r.current_price)) = some q ∧ _
      rw [hgrp]
      cases hq : sqlMax ((partitionRows l d s).map (fun r => r.current_price)) with
      | none =>
        have := (sqlMax_eq_none_iff _).mp hq
        rw [List.map_eq_nil_iff] at this
        exact absurd this hne
      | some q =>
        obtain ⟨hq_mem, hq_le⟩ := (sqlMax_eq_some_iff _ _).mp hq
        exact ⟨q, rfl, hq_mem, hq_le⟩
    · show ∃ q, sqlMin (((partitionRows l d s).filter (inGroup c src)).map
          (fun r => r.current_price)) = some q ∧ _
      rw [hgrp]
      cases hq : sqlMin ((partitionRows l d s).map (fun r => r.current_price)) with
      | none =>
        have := (sqlMin_eq_none_iff _).mp hq
        rw [List.map_eq_nil_iff] at this
        exact absurd this hne
      | some q =>
        obtain ⟨hq_mem, hq_le⟩ := (sqlMin_eq_some_iff _ _).mp hq
        exact ⟨q, rfl, hq_mem, hq_le⟩
    · show (if ((partitionRows l d s).filter (inGroup c src)).isEmpty
          then Option.none
          else some ((((partitionRows l d s).filter (inGroup c src)).map
              (fun r => r.current_price)).sum /
            ((partitionRows l d s).filter (inGroup c src)).length)) = _
      rw [hgrp]
      simp [List.isEmpty_iff, hne]
    · show (argminTs (partitionRows l d s)).bind _ = _
      rw [hm0, hm0r]
      simp [hg0]
    · show (argmaxTs (partitionRows l d s)).bind _ = _
      rw [hm1, hm1r]
      simp [hg1]
  · show some _ = _
    simp +decide [get_daily_summary, summaryKeys, dailySummaryRow, partitionRows,
      inGroup, dateOf, demo3, demoRow, argminTs, argmaxTs, sqlMax, sqlMin]
    norm_num

/-- C5 witness: the universal part applied to the three-capture example
day, with the first and last capture as extremal rows. -/
theorem C5_daily_summary_witness :
    (dailySummaryRow demo3 0 "AAPL" "Apple Inc." "Yahoo Finance").opening_price =
      some (demoRow 100 100 1).current_price ∧
    (dailySummaryRow demo3 0 "AAPL" "Apple Inc." "Yahoo Finance").closing_price =
      some (demoRow 300 98 3).current_price := by
  have h := C5_daily_summary.1 demo3 0 "AAPL" "Apple Inc." "Yahoo Finance"
    (demoRow 100 100 1) (demoRow 300 98 3)
    (by decide) (by decide) (by decide) (by decide) (by decide) (by decide)
  exact ⟨h.1, h.2.1⟩

/-- Two same-day snapshots of one symbol whose `sources` differ. -/
def mixA : SnapRow :=
  { timestamp := 100, symbol := "AAPL", company := "Apple Inc.",
    current_price := 100, previous_close := 99, daily_change := 1, sources := "A" }

def mixB : SnapRow :=
  { timestamp := 200, symbol := "AAPL", company := "Apple Inc.",
    current_price := 200, previous_close := 99, daily_change := 2, sources := "B" }

/-- C5 counterexample: the view groups by `(date, symbol, company,
sources)`, not `(date, symbol)`: when `sources` changes intra-day the
`(date, symbol)` group is split into two rollup rows and neither reports
the claimed opening (price of the min-`captured_at` row, 100) together
with the claimed closing (price of the max-`captured_at` row, 200). -/
theorem C5_counterexample :
    ∃ u, get_daily_summary { available := true, rows := [mixA, mixB] } 0 = some u ∧
      u.length = 2 ∧
      ∀ r ∈ u, ¬(r.opening_price = some 100 ∧ r.closing_price = some 200) := by
  refine ⟨_, rfl, ?_, ?_⟩
  · simp +decide [get_daily_summary, summaryKeys, dailySummaryRow, partitionRows,
      inGroup, dateOf, mixA, mixB, argminTs, argmaxTs, sqlMax, sqlMin]
  · intro r hr
    simp +decide [get_daily_summary, summaryKeys, dailySummaryRow, partitionRows,
      inGroup, dateOf, mixA, mixB, argminTs, argmaxTs, sqlMax, sqlMin] at hr
    rcases hr with rfl | rfl
    · rintro ⟨h1, h2⟩
      cases h2
    · rintro ⟨h1, h2⟩
      cases h1

end StockMonitor
